import Mathlib

/-!
Shallow embedding of PySyft's bounded-tensor convolution layer
(`packages/syft/src/syft/core/tensor/nn/layers/convolution.py`) together
with the tensor utilities it calls.

The layer source is embedded operation by operation.  The utilities it
imports (`im2col_indices`, `col2im_indices`, the `PhiTensor` array type,
the activation registry and `XavierInitialization`) are not part of the
provided source tree, so they are modelled from the specification
(sections 3, 4.2, 4.3 and 6 of the spec); each such definition carries a
doc comment saying so.

Modelling conventions:
* element values are integers (`Int`): no claim under consideration
  depends on floating-point semantics, only on which values flow where;
* a tensor is its shape, its row-major value buffer and its row-major
  provenance ("data subject") buffer; the per-element lower/upper bound
  arrays of the source's `PhiTensor` are not modelled because no claim
  mentions them (the two statements in `backward` that force the bound
  arrays' shapes, and the debug prints, touch only that omitted data);
* fallible Python operations return `Except LayerErr`; the constructors
  of `LayerErr` follow the spec's error taxonomy (section 7), and each
  use notes which concrete Python failure it stands for.
-/

/-- Error taxonomy of the spec (section 7), plus the two incidental
Python failures the layer can actually produce:
* `configurationError` — the `assert`s in `connect_to`;
* `shapeMismatchError` — numpy shape failures (tuple unpacking of a
  wrong-rank shape, incompatible matmul operands, size-changing reshape);
* `arityError` — the `assert len(new_params) == 2` in the params setter;
* `stateError` — use of a cache attribute that is still `None` / unset
  (surfacing in Python as an `AttributeError` on `None`);
* `typeError` — unpacking or measuring `None` (e.g. `len(None)`);
* `notImplementedError` — the explicit `raise NotImplementedError` for a
  filter size that is neither an int nor a pair. -/
inductive LayerErr where
  | configurationError
  | shapeMismatchError
  | arityError
  | stateError
  | typeError
  | notImplementedError
  deriving DecidableEq, Repr

/-- The bounded tensor (spec section 3), restricted to the facets the
claims exercise: a shape, a row-major value buffer and a row-major
provenance buffer.  Reads outside the buffer default to `0`; every
operation below builds buffers whose length equals the shape's product,
so in-range reads are exact. -/
structure Tensor where
  shape : List Nat
  data : List Int
  subjects : List Nat
  deriving DecidableEq, Repr

namespace Tensor

/-- Number of elements determined by the shape (numpy `size`). -/
def size (t : Tensor) : Nat := t.shape.prod

/-- Rebuild a tensor of shape `newShape` by reading, for each flat
output index, the flat input index given by `f` — or a synthetic zero
element (value `0`, neutral provenance `0`) when `f` returns `none`.
Values and provenance move in lock-step (spec section 4.1). -/
def gatherOpt (t : Tensor) (newShape : List Nat) (f : Nat → Option Nat) : Tensor :=
  { shape := newShape
  , data := (List.range newShape.prod).map fun i =>
      match f i with
      | some j => t.data.getD j 0
      | none => 0
  , subjects := (List.range newShape.prod).map fun i =>
      match f i with
      | some j => t.subjects.getD j 0
      | none => 0 }

/-- `gatherOpt` with a total index map. -/
def gather (t : Tensor) (newShape : List Nat) (f : Nat → Nat) : Tensor :=
  t.gatherOpt newShape (fun i => some (f i))

/-- numpy `reshape` with explicit target dimensions: the buffers are
untouched, only the shape changes; fails when the element count would
change (`ValueError` in numpy). -/
def reshape (t : Tensor) (s : List Nat) : Except LayerErr Tensor :=
  if t.shape.prod = s.prod then .ok { t with shape := s }
  else .error .shapeMismatchError

/-- numpy `reshape((r, -1))`: the second dimension is inferred; fails
when `r` is zero or does not divide the element count. -/
def reshapeInfer (t : Tensor) (r : Nat) : Except LayerErr Tensor :=
  if 0 < r ∧ t.shape.prod % r = 0 then
    .ok { t with shape := [r, t.shape.prod / r] }
  else .error .shapeMismatchError

/-- numpy `.T` on a matrix. -/
def T (t : Tensor) : Except LayerErr Tensor :=
  match t.shape with
  | [m, n] => .ok (t.gather [n, m] fun idx => (idx % m) * n + idx / m)
  | _ => .error .shapeMismatchError

/-- Matrix multiplication `A @ B`; fails when the contracted dimensions
disagree.  Provenance of the result is abstracted to the neutral tag:
no claim under consideration observes provenance past a contraction. -/
def matmul (A B : Tensor) : Except LayerErr Tensor :=
  match A.shape, B.shape with
  | [m, k], [k2, n] =>
    if k = k2 then
      .ok { shape := [m, n]
          , data := (List.range (m * n)).map fun idx =>
              (List.range k).foldl
                (fun acc q =>
                  acc + A.data.getD ((idx / n) * k + q) 0 * B.data.getD (q * n + idx % n) 0)
                0
          , subjects := List.replicate (m * n) 0 }
    else .error .shapeMismatchError
  | _, _ => .error .shapeMismatchError

/-- `M + v` for a matrix `M` and a vector `v` broadcast along the rows
(the `+ self.b` in the layer's forward).  Provenance follows `M`. -/
def addRowVec (A v : Tensor) : Except LayerErr Tensor :=
  match A.shape, v.shape with
  | [m, n], [n2] =>
    if n = n2 then
      .ok { shape := [m, n]
          , data := (List.range (m * n)).map fun idx =>
              A.data.getD idx 0 + v.data.getD (idx % n) 0
          , subjects := (List.range (m * n)).map fun idx => A.subjects.getD idx 0 }
    else .error .shapeMismatchError
  | _, _ => .error .shapeMismatchError

/-- Element-wise product of two same-shaped tensors (the
`pre_grad * derivative` in the layer's backward).  Provenance follows
the left operand. -/
def mul (A B : Tensor) : Except LayerErr Tensor :=
  if A.shape = B.shape then
    .ok { shape := A.shape
        , data := (List.range A.shape.prod).map fun idx =>
            A.data.getD idx 0 * B.data.getD idx 0
        , subjects := (List.range A.shape.prod).map fun idx => A.subjects.getD idx 0 }
  else .error .shapeMismatchError

/-- numpy `sum(axis=(0, 2, 3))` on a rank-4 tensor `(n, f, h, w)`,
producing shape `(f,)`.  Provenance of a reduction is abstracted to the
neutral tag. -/
def sumAxes023 (t : Tensor) : Except LayerErr Tensor :=
  match t.shape with
  | [n, f, h, w] =>
    .ok { shape := [f]
        , data := (List.range f).map fun j =>
            (List.range (n * (h * w))).foldl
              (fun acc q =>
                acc +
                  t.data.getD
                    (((q / (h * w) * f + j) * h + q % (h * w) / w) * w + q % (h * w) % w) 0)
              0
        , subjects := List.replicate f 0 }
  | _ => .error .shapeMismatchError

/-- numpy `transpose((3, 0, 1, 2))` on a rank-4 tensor `(a, b, c, d)`,
producing `(d, a, b, c)` with `result[i, j, k, l] = t[j, k, l, i]`. -/
def transpose3012 (t : Tensor) : Except LayerErr Tensor :=
  match t.shape with
  | [a, b, c, d] =>
    .ok (t.gather [d, a, b, c] fun idx =>
      ((idx % (a * (b * c)) / (b * c) * b + idx % (a * (b * c)) % (b * c) / c) * c +
          idx % (a * (b * c)) % (b * c) % c) * d +
        idx / (a * (b * c)))
  | _ => .error .shapeMismatchError

/-- numpy `transpose((1, 2, 3, 0))` on a rank-4 tensor `(a, b, c, d)`,
producing `(b, c, d, a)` with `result[i, j, k, l] = t[l, i, j, k]`. -/
def transpose1230 (t : Tensor) : Except LayerErr Tensor :=
  match t.shape with
  | [a, b, c, d] =>
    .ok (t.gather [b, c, d, a] fun idx =>
      ((idx % a * b + idx / (c * (d * a))) * c + idx / (d * a) % c) * d + idx / a % d)
  | _ => .error .shapeMismatchError

end Tensor

/-- Shared output-extent formula `(len + 2*padding - kernel) // stride + 1`
(spec sections 4.2 and 4.4; `connect_to` lines 87-88 compute exactly this
for height and width).  Over `Nat` this coincides with Python's value
whenever `kernel ≤ len + 2*padding` — the regime every claim works in. -/
def outDim (len kernel padding stride : Nat) : Nat :=
  (len + 2 * padding - kernel) / stride + 1

/-- Modelled from the spec (section 4.2): `im2col_indices` is not in the
provided sources.  Input `(N, C, H, W)`, kernel `kh × kw`, zero padding
`p`, stride `s`; output `(C*kh*kw, N*out_h*out_w)` where the column for
batch item `n` and patch position `(i, j)` holds the flattened window
`[i*s : i*s+kh, j*s : j*s+kw]` of the padded image, rows ordered by
(channel, kernel-row, kernel-col).  Synthetic padding elements carry
value `0` and the neutral provenance tag. -/
def im2col_indices (t : Tensor) (kh kw p s : Nat) : Except LayerErr Tensor :=
  match t.shape with
  | [n, c, h, w] =>
    let oh := outDim h kh p s
    let ow := outDim w kw p s
    .ok (t.gatherOpt [c * (kh * kw), n * (oh * ow)] fun idx =>
      let cols := n * (oh * ow)
      let ch := idx / cols / (kh * kw)
      let ki := idx / cols % (kh * kw) / kw
      let kj := idx / cols % (kh * kw) % kw
      let bn := idx % cols / (oh * ow)
      let i := idx % cols % (oh * ow) / ow
      let j := idx % cols % (oh * ow) % ow
      let y := i * s + ki
      let x := j * s + kj
      if p ≤ y ∧ y < h + p ∧ p ≤ x ∧ x < w + p then
        some (((bn * c + ch) * h + (y - p)) * w + (x - p))
      else none)
  | _ => .error .shapeMismatchError

/-- Modelled from the spec (section 4.3): `col2im_indices` is not in the
provided sources.  Scatters a matrix of gradient patches back to the
image shape `x_shape`, summing every contribution that read a given
element during extraction and discarding padding-region contributions.
As in the source utility, the input matrix is consumed through its flat
buffer, so any matrix with the matching element count
`C*kh*kw * N*out_h*out_w` is accepted (a reshape-style size check);
provenance is reattached from the cached data subjects `ds`.  The target
shape arrives as the layer's possibly-absent `input_shape`; `none`
reproduces Python's failure on unpacking `None`. -/
def col2im_indices (cols : Tensor) (x_shape : Option (List Nat)) (ds : List Nat)
    (kh kw p s : Nat) : Except LayerErr Tensor :=
  match x_shape with
  | none => .error .typeError
  | some sh =>
    match sh with
    | [n, c, h, w] =>
      let oh := outDim h kh p s
      let ow := outDim w kw p s
      if cols.shape.prod = c * (kh * kw) * (n * (oh * ow)) then
        .ok { shape := [n, c, h, w]
            , data := (List.range (n * (c * (h * w)))).map fun idx =>
                let bn := idx / (c * (h * w))
                let ch := idx % (c * (h * w)) / (h * w)
                let y := idx % (c * (h * w)) % (h * w) / w
                let x := idx % (c * (h * w)) % (h * w) % w
                (List.range (kh * kw)).foldl
                  (fun acc k =>
                    let ki := k / kw
                    let kj := k % kw
                    if ki ≤ y + p ∧ kj ≤ x + p ∧ (y + p - ki) % s = 0 ∧ (x + p - kj) % s = 0
                        ∧ (y + p - ki) / s < oh ∧ (x + p - kj) / s < ow then
                      acc +
                        cols.data.getD
                          (((ch * kh + ki) * kw + kj) * (n * (oh * ow)) +
                            ((bn * oh + (y + p - ki) / s) * ow + (x + p - kj) / s)) 0
                    else acc)
                  0
            , subjects := (List.range (n * (c * (h * w)))).map fun idx => ds.getD idx 0 }
      else .error .shapeMismatchError
    | _ => .error .shapeMismatchError

/-- Modelled from the spec (section 6): the activation strategy is an
external collaborator with two polymorphic operations.  The layer
branches on `activation is not None`, so a configured activation is an
explicit pair of tensor functions. -/
structure Activation where
  forward : Tensor → Tensor
  derivative : Tensor → Tensor

/-- `filter_size` as the constructor accepts it: a `(height, width)`
pair, a single int used for both extents, or anything else (for which
`connect_to` raises `NotImplementedError`). -/
inductive FilterSize where
  | pair (h w : Nat)
  | int (k : Nat)
  | other

/-- The whole mutable state of a `Convolution` instance: the
construction-time configuration, the connect-time parameters and
derived output shape, the gradients, and the per-pass caches.
`ds_cached` is an attribute first created inside `forward`; before that
it is absent, which `none` models. -/
structure ConvState where
  nb_filter : Nat
  filter_size : FilterSize
  input_shape : Option (List Nat)
  stride : Nat
  padding : Nat
  activation : Option Activation
  W : Option Tensor
  dW : Option Tensor
  b : Option Tensor
  db : Option Tensor
  out_shape : Option (List Nat)
  last_output : Option Tensor
  last_input : Option Tensor
  X_col : Option Tensor
  ds_cached : Option (List Nat)

/-- `Convolution.__init__`: stores the configuration and leaves every
parameter, gradient and cache unset. -/
def mkConvolution (nb_filter : Nat) (filter_size : FilterSize)
    (input_shape : Option (List Nat)) (stride padding : Nat)
    (activation : Option Activation) : ConvState :=
  { nb_filter := nb_filter
  , filter_size := filter_size
  , input_shape := input_shape
  , stride := stride
  , padding := padding
  , activation := activation
  , W := none, dW := none, b := none, db := none
  , out_shape := none, last_output := none, last_input := none
  , X_col := none, ds_cached := none }

/-- Modelled from the spec (sections 2 and 6): `XavierInitialization` is
not in the provided sources; it returns a plain numeric array of the
requested shape.  Its variance-scaled random values are irrelevant to
every claim (the claims about values go through the `params` setter), so
they are fixed to zeros here. -/
def xavierInit (s : List Nat) : Tensor :=
  { shape := s, data := List.replicate s.prod 0, subjects := List.replicate s.prod 0 }

/-- `np.zeros((nb_filter,))`. -/
def zeros1 (n : Nat) : Tensor :=
  { shape := [n], data := List.replicate n 0, subjects := List.replicate n 0 }

/-- `Convolution.connect_to(prev_layer)`.  The predecessor argument is
`none` for "no predecessor" and `some o` for a predecessor whose
`out_shape` is `o` (itself `none` when the predecessor was never
connected, in which case `len(None)` fails).  The two `assert`s are the
spec's ConfigurationError; a filter size of an unexpected type raises
`NotImplementedError`.  Derived state: output shape by the shared
extent formula, a Xavier-initialised weight tensor
`(nb_filter, in_channels, kh, kw)` and a zero bias `(nb_filter,)`. -/
def connectTo (st : ConvState) (prev : Option (Option (List Nat))) : Except LayerErr ConvState :=
  let withShape : List Nat → Except LayerErr ConvState := fun input_shape =>
    match input_shape with
    | [nb_batch, pre_nb_filter, pre_height, pre_width] =>
      match hwOf st.filter_size with
      | none => .error .notImplementedError
      | some (filter_height, filter_width) =>
        .ok { st with
                out_shape := some
                  [nb_batch, st.nb_filter,
                   outDim pre_height filter_height st.padding st.stride,
                   outDim pre_width filter_width st.padding st.stride]
              , W := some (xavierInit [st.nb_filter, pre_nb_filter, filter_height, filter_width])
              , b := some (zeros1 st.nb_filter) }
    | _ => .error .configurationError
  match prev with
  | none =>
    match st.input_shape with
    | none => .error .configurationError
    | some ishape => withShape ishape
  | some none => .error .typeError
  | some (some oshape) => withShape oshape
where
  /-- The `isinstance` dispatch on `self.filter_size`. -/
  hwOf : FilterSize → Option (Nat × Nat)
    | .pair h w => some (h, w)
    | .int k => some (k, k)
    | .other => none

/-- Lift an optional attribute whose absence (Python `None`) makes the
next attribute access fail. -/
def need {α : Type} (o : Option α) (e : LayerErr) : Except LayerErr α :=
  match o with
  | some a => .ok a
  | none => .error e

/-- The fallible pipeline of `Convolution.forward` (lines 97-133 of the
source): unpack `W.shape` and `input.shape`, read `h_out, w_out` from
the connect-time output shape, extract patches, flatten the weights,
`X_col.T @ W_col.T + b`, reshape to `(filters, h_out, w_out, batch)` and
transpose to `(batch, filters, h_out, w_out)`.  Returns the patch matrix
(to be cached) and the pipeline output. -/
def forwardCompute (st : ConvState) (input : Tensor) : Except LayerErr (Tensor × Tensor) := do
  let Wt ← need st.W .stateError
  let (n_filters, _d_filter, h_filter, w_filter) ←
    match Wt.shape with
    | [a, b, c, d] => .ok ((a, b, c, d) : Nat × Nat × Nat × Nat)
    | _ => .error .shapeMismatchError
  let (n_x, _d_x, _h_x, _w_x) ←
    match input.shape with
    | [a, b, c, d] => .ok ((a, b, c, d) : Nat × Nat × Nat × Nat)
    | _ => .error .shapeMismatchError
  let osh ← need st.out_shape .typeError
  let (_, _, h_out, w_out) ←
    match osh with
    | [a, b, c, d] => .ok ((a, b, c, d) : Nat × Nat × Nat × Nat)
    | _ => .error .shapeMismatchError
  let X_col ← im2col_indices input h_filter w_filter st.padding st.stride
  let W_col ← Wt.reshapeInfer n_filters
  let bt ← need st.b .stateError
  let XT ← X_col.T
  let WT ← W_col.T
  let mm ← XT.matmul WT
  let out0 ← mm.addRowVec bt
  let out1 ← out0.reshape [n_filters, h_out, w_out, n_x]
  let out2 ← out1.transpose3012
  .ok (X_col, out2)

/-- `Convolution.forward`: runs the pipeline, then writes the per-pass
caches — `last_input`, `ds_cached`, `X_col`, and `last_output` (the
activated pipeline output when an activation is configured, the raw one
otherwise) — and returns `out`, the raw pipeline output (the source's
`return out`, NOT `self.last_output`). -/
def forward (st : ConvState) (input : Tensor) : Except LayerErr (ConvState × Tensor) :=
  match forwardCompute st input with
  | .error e => .error e
  | .ok (X_col, out) =>
    .ok ({ st with
            last_input := some input
          , ds_cached := some input.subjects
          , X_col := some X_col
          , last_output := some (match st.activation with
              | some act => act.forward out
              | none => out) }, out)

/-- The fallible pipeline of `Convolution.backward` (lines 146-184):
unpack `W.shape`; multiply the incoming gradient by
`activation.derivative(pre_grad)` — evaluated at the incoming gradient
itself — when an activation is configured; bias gradient by
`sum(axis=(0,2,3))` reshaped to `(n_filter, -1)`; reshape/transpose the
gradient; weight gradient `pre_grads_reshaped @ X_col.T` reshaped to
`W.shape`; patch-space input gradient `pre_grads_reshaped.T @ W_reshape`;
scatter with `col2im_indices` against the constructor-supplied
`self.input_shape` and the cached data subjects.  Returns
`(db, dW, dX)`. -/
def actGrad (st : ConvState) (pre_grad : Tensor) : Except LayerErr Tensor :=
  match st.activation with
  | some act => pre_grad.mul (act.derivative pre_grad)
  | none => .ok pre_grad

def backwardCompute (st : ConvState) (pre_grad : Tensor) :
    Except LayerErr (Tensor × Tensor × Tensor) := do
  let Wt ← need st.W .stateError
  let (n_filter, _d_filter, h_filter, w_filter) ←
    match Wt.shape with
    | [a, b, c, d] => .ok ((a, b, c, d) : Nat × Nat × Nat × Nat)
    | _ => .error .shapeMismatchError
  let pre_grads ← actGrad st pre_grad
  let db0 ← pre_grads.sumAxes023
  let db1 ← db0.reshapeInfer n_filter
  let pg1 ← pre_grads.transpose1230
  let pre_grads_reshaped ← pg1.reshapeInfer n_filter
  let X_col ← need st.X_col .stateError
  let XcT ← X_col.T
  let dW0 ← pre_grads_reshaped.matmul XcT
  let dW1 ← dW0.reshape Wt.shape
  let W_reshape ← Wt.reshapeInfer n_filter
  let pgT ← pre_grads_reshaped.T
  let dX_col ← pgT.matmul W_reshape
  let ds ← need st.ds_cached .stateError
  let dX ← col2im_indices dX_col st.input_shape ds h_filter w_filter st.padding st.stride
  .ok (db1, dW1, dX)

/-- `Convolution.backward`: runs the pipeline, stores the bias and
weight gradients, and returns the input gradient.  Note that the
forward caches (`last_input`, `X_col`, `ds_cached`, `last_output`) are
NOT cleared. -/
def backward (st : ConvState) (pre_grad : Tensor) : Except LayerErr (ConvState × Tensor) :=
  match backwardCompute st pre_grad with
  | .error e => .error e
  | .ok (db1, dW1, dX) => .ok ({ st with db := some db1, dW := some dW1 }, dX)

/-- The `params` property getter: `(self.W, self.b)`. -/
def params (st : ConvState) : Option Tensor × Option Tensor := (st.W, st.b)

/-- The `params` property setter: asserts exactly two values and
unpacks them into `W` and `b`. -/
def paramsSet (st : ConvState) (new_params : List Tensor) : Except LayerErr ConvState :=
  match new_params with
  | [w, bb] => .ok { st with W := some w, b := some bb }
  | _ => .error .arityError

/-- The `grads` property getter: `(self.dW, self.db)`. -/
def grads (st : ConvState) : Option Tensor × Option Tensor := (st.dW, st.db)

/-! Concrete instances used to evaluate the layer on explicit inputs. -/

/-- A ReLU-style activation: an explicit, honest instance of the
polymorphic activation interface. -/
def relu : Activation :=
  { forward := fun t => { t with data := t.data.map fun v => max v 0 }
  , derivative := fun t => { t with data := t.data.map fun v => if 0 < v then 1 else 0 } }

/-- An activation whose local derivative is the identity map on values:
its derivative at a tensor is that tensor itself, which makes the point
of evaluation of the derivative observable. -/
def valAct : Activation :=
  { forward := fun t => t
  , derivative := fun t => t }

/-- A 1×1×1×1 weight tensor holding `1`. -/
def wOne : Tensor := { shape := [1, 1, 1, 1], data := [1], subjects := [0] }

/-- A length-1 zero bias. -/
def bZero : Tensor := { shape := [1], data := [0], subjects := [0] }

/-- C1 run: a 1-filter, 1×1-kernel layer on 1×1×1×1 inputs with the
ReLU activation, connected, then given weight `1` and bias `0` through
the params setter. -/
def c1st : ConvState :=
  let s0 := mkConvolution 1 (.int 1) (some [1, 1, 1, 1]) 1 0 (some relu)
  let s1 := (connectTo s0 none).toOption.getD s0
  (paramsSet s1 [wOne, bZero]).toOption.getD s1

/-- C1 input: the single element is `-5`, so the pipeline output is
`-5` and its ReLU image is `0`. -/
def c1x : Tensor := { shape := [1, 1, 1, 1], data := [-5], subjects := [7] }

/-- C5 run: as `c1st` but with the identity-derivative activation. -/
def c5st : ConvState :=
  let s0 := mkConvolution 1 (.int 1) (some [1, 1, 1, 1]) 1 0 (some valAct)
  let s1 := (connectTo s0 none).toOption.getD s0
  let s2 := (paramsSet s1 [wOne, bZero]).toOption.getD s1
  let x : Tensor := { shape := [1, 1, 1, 1], data := [2], subjects := [0] }
  ((forward s2 x).toOption.map Prod.fst).getD s2

/-- C5: the pre-activation value cached by that forward pass is `2`
(input `2`, weight `1`, bias `0`). -/
def c5preact : Tensor := { shape := [1, 1, 1, 1], data := [2], subjects := [0] }

/-- C5 incoming gradient: the single element is `3`. -/
def c5g : Tensor := { shape := [1, 1, 1, 1], data := [3], subjects := [0] }

/-- C3 counterexample run: a layer constructed WITHOUT an explicit
input shape, connected through a predecessor of output shape
`(1, 1, 1, 1)`, then forwarded once.  Its `input_shape` attribute is
still `None`. -/
def c3st : ConvState :=
  let s0 := mkConvolution 1 (.int 1) none 1 0 none
  let s1 := (connectTo s0 (some (some [1, 1, 1, 1]))).toOption.getD s0
  let x : Tensor := { shape := [1, 1, 1, 1], data := [3], subjects := [0] }
  ((forward s1 x).toOption.map Prod.fst).getD s1

/-- A 1×1×1×1 gradient tensor (the output shape of the tiny layers). -/
def gOne : Tensor := { shape := [1, 1, 1, 1], data := [1], subjects := [0] }

/-- C4 counterexample run: explicit-shape layer, connected, forwarded
once, then backwarded once.  No forward has happened since that
backward. -/
def c4st : ConvState :=
  let s0 := mkConvolution 1 (.int 1) (some [1, 1, 1, 1]) 1 0 none
  let s1 := (connectTo s0 none).toOption.getD s0
  let x : Tensor := { shape := [1, 1, 1, 1], data := [3], subjects := [0] }
  let s2 := ((forward s1 x).toOption.map Prod.fst).getD s1
  ((backward s2 gOne).toOption.map Prod.fst).getD s2

/-- C6 counterexample layer: connected for input shape `(1, 1, 2, 2)`
with a 1×1 kernel, stride 1, no padding. -/
def c6st : ConvState :=
  let s0 := mkConvolution 1 (.int 1) (some [1, 1, 2, 2]) 1 0 none
  (connectTo s0 none).toOption.getD s0

/-- C6 counterexample input: rank 4 and channel count 1 matching the
weights, but spatial extent 3×3 instead of the connect-time 2×2. -/
def c6x : Tensor :=
  { shape := [1, 1, 3, 3], data := List.replicate 9 1, subjects := List.replicate 9 0 }

/-- C9 run: explicit-shape layer, connected (weights stay at their
initialisation). -/
def c9st : ConvState :=
  let s0 := mkConvolution 1 (.int 1) (some [1, 1, 1, 1]) 1 0 none
  (connectTo s0 none).toOption.getD s0

/-- The state `connect_to` leaves a layer in when it was constructed
with nb_filter `F`, filter size `(kh, kw)`, explicit input shape
`(N, C, H, W)`, stride `s`, padding `p` and activation `act`. -/
def connectedConv (F kh kw s p N C H W : Nat) (act : Option Activation) : ConvState :=
  { mkConvolution F (.pair kh kw) (some [N, C, H, W]) s p act with
      out_shape := some [N, F, outDim H kh p s, outDim W kw p s]
    , W := some (xavierInit [F, C, kh, kw])
    , b := some (zeros1 F) }

/-- A concrete `(1, 1, 2, 2)` input tensor. -/
def c2x : Tensor :=
  { shape := [1, 1, 2, 2], data := [1, 2, 3, 4], subjects := [0, 0, 0, 0] }

/-- C9 input. -/
def c9x : Tensor := { shape := [1, 1, 1, 1], data := [5], subjects := [7] }

/-- The state `forward c9st c9x` produces: only the four per-pass cache
fields change. -/
def c9after : ConvState :=
  { c9st with
      last_input := some c9x
    , ds_cached := some [7]
    , X_col := some { shape := [1, 1], data := [5], subjects := [7] }
    , last_output := some { shape := [1, 1, 1, 1], data := [0], subjects := [0] } }

/-- The output tensor `forward c9st c9x` returns. -/
def c9out : Tensor := { shape := [1, 1, 1, 1], data := [0], subjects := [0] }

/-! ## Helper lemmas about the tensor operations -/

theorem ebind_ok {α β : Type} (a : α) (f : α → Except LayerErr β) :
    (Except.ok a >>= f : Except LayerErr β) = f a := rfl

theorem need_some {α : Type} (a : α) (e : LayerErr) : need (some a) e = .ok a := rfl

theorem Tensor.reshape_ok (t : Tensor) (s : List Nat) (h : t.shape.prod = s.prod) :
    t.reshape s = .ok { t with shape := s } := by
  simp [Tensor.reshape, h]

theorem Tensor.reshapeInfer_ok (t : Tensor) (r : Nat) (hr : 0 < r)
    (hd : t.shape.prod % r = 0) :
    t.reshapeInfer r = .ok { t with shape := [r, t.shape.prod / r] } := by
  simp [Tensor.reshapeInfer, hr, hd]

theorem Tensor.T_ok (t : Tensor) (m n : Nat) (h : t.shape = [m, n]) :
    ∃ u, t.T = .ok u ∧ u.shape = [n, m] := by
  simp only [Tensor.T, h]
  exact ⟨_, rfl, rfl⟩

theorem Tensor.matmul_ok (A B : Tensor) (m k n : Nat)
    (hA : A.shape = [m, k]) (hB : B.shape = [k, n]) :
    ∃ u, A.matmul B = .ok u ∧ u.shape = [m, n] := by
  simp only [Tensor.matmul, hA, hB, if_true]
  exact ⟨_, rfl, rfl⟩

theorem Tensor.addRowVec_ok (A v : Tensor) (m n : Nat)
    (hA : A.shape = [m, n]) (hv : v.shape = [n]) :
    ∃ u, A.addRowVec v = .ok u ∧ u.shape = [m, n] := by
  simp only [Tensor.addRowVec, hA, hv, if_true]
  exact ⟨_, rfl, rfl⟩

theorem Tensor.mul_ok (A B : Tensor) (s : List Nat)
    (hA : A.shape = s) (hB : B.shape = s) :
    ∃ u, A.mul B = .ok u ∧ u.shape = s := by
  simp only [Tensor.mul, hA, hB, if_true]
  exact ⟨_, rfl, rfl⟩

theorem Tensor.sumAxes023_ok (t : Tensor) (n f hh ww : Nat) (h : t.shape = [n, f, hh, ww]) :
    ∃ u, t.sumAxes023 = .ok u ∧ u.shape = [f] := by
  simp only [Tensor.sumAxes023, h]
  exact ⟨_, rfl, rfl⟩

theorem Tensor.transpose3012_ok (t : Tensor) (a b c d : Nat) (h : t.shape = [a, b, c, d]) :
    ∃ u, t.transpose3012 = .ok u ∧ u.shape = [d, a, b, c] := by
  simp only [Tensor.transpose3012, h]
  exact ⟨_, rfl, rfl⟩

theorem Tensor.transpose1230_ok (t : Tensor) (a b c d : Nat) (h : t.shape = [a, b, c, d]) :
    ∃ u, t.transpose1230 = .ok u ∧ u.shape = [b, c, d, a] := by
  simp only [Tensor.transpose1230, h]
  exact ⟨_, rfl, rfl⟩

theorem im2col_ok (t : Tensor) (kh kw p s n c h w : Nat) (ht : t.shape = [n, c, h, w]) :
    ∃ u, im2col_indices t kh kw p s = .ok u ∧
      u.shape = [c * (kh * kw), n * (outDim h kh p s * outDim w kw p s)] := by
  simp only [im2col_indices, ht]
  exact ⟨_, rfl, rfl⟩

theorem col2im_ok (cols : Tensor) (ds : List Nat) (kh kw p s n c h w : Nat)
    (hsz : cols.shape.prod = c * (kh * kw) * (n * (outDim h kh p s * outDim w kw p s))) :
    ∃ u, col2im_indices cols (some [n, c, h, w]) ds kh kw p s = .ok u ∧
      u.shape = [n, c, h, w] := by
  simp only [col2im_indices, hsz, if_true]
  exact ⟨_, rfl, rfl⟩

/-! ## Symbolic runs of connect and forward -/

theorem connectTo_explicit (st : ConvState) (N C H W kh kw : Nat)
    (hin : st.input_shape = some [N, C, H, W])
    (hfs : st.filter_size = .pair kh kw) :
    connectTo st none = .ok { st with
      out_shape := some [N, st.nb_filter, outDim H kh st.padding st.stride,
                         outDim W kw st.padding st.stride]
    , W := some (xavierInit [st.nb_filter, C, kh, kw])
    , b := some (zeros1 st.nb_filter) } := by
  simp only [connectTo, hin, hfs, connectTo.hwOf]

theorem forwardCompute_ok (st : ConvState) (x Wt bt : Tensor)
    (F C kh kw N H W p s : Nat)
    (hp : st.padding = p) (hs : st.stride = s)
    (hW : st.W = some Wt) (hWs : Wt.shape = [F, C, kh, kw])
    (hb : st.b = some bt) (hbs : bt.shape = [F])
    (hout : st.out_shape = some [N, F, outDim H kh p s, outDim W kw p s])
    (hx : x.shape = [N, C, H, W]) (hF : 0 < F) :
    ∃ Xc out, forwardCompute st x = .ok (Xc, out) ∧
      Xc.shape = [C * (kh * kw), N * (outDim H kh p s * outDim W kw p s)] ∧
      out.shape = [N, F, outDim H kh p s, outDim W kw p s] := by
  obtain ⟨Xc, hXc, hXcs⟩ := im2col_ok x kh kw p s N C H W hx
  have hWprod : Wt.shape.prod = F * (C * (kh * kw)) := by
    rw [hWs]; simp [List.prod_cons, Nat.mul_assoc]
  have hWmod : Wt.shape.prod % F = 0 := by rw [hWprod]; exact Nat.mul_mod_right F _
  have hWdiv : Wt.shape.prod / F = C * (kh * kw) := by
    rw [hWprod]; exact Nat.mul_div_cancel_left _ hF
  have hWcol := Tensor.reshapeInfer_ok Wt F hF hWmod
  rw [hWdiv] at hWcol
  obtain ⟨XT, hXT, hXTs⟩ := Tensor.T_ok Xc _ _ hXcs
  obtain ⟨WT, hWT, hWTs⟩ :=
    Tensor.T_ok { Wt with shape := [F, C * (kh * kw)] } F (C * (kh * kw)) rfl
  obtain ⟨mm, hmm, hmms⟩ :=
    Tensor.matmul_ok XT WT (N * (outDim H kh p s * outDim W kw p s)) (C * (kh * kw)) F hXTs hWTs
  obtain ⟨o0, ho0, ho0s⟩ := Tensor.addRowVec_ok mm bt _ _ hmms hbs
  have hre : o0.shape.prod = ([F, outDim H kh p s, outDim W kw p s, N] : List Nat).prod := by
    rw [ho0s]; simp [List.prod_cons]; ring
  have ho1 := Tensor.reshape_ok o0 [F, outDim H kh p s, outDim W kw p s, N] hre
  obtain ⟨o2, ho2, ho2s⟩ :=
    Tensor.transpose3012_ok { o0 with shape := [F, outDim H kh p s, outDim W kw p s, N] }
      F (outDim H kh p s) (outDim W kw p s) N rfl
  refine ⟨Xc, o2, ?_, hXcs, ho2s⟩
  simp only [forwardCompute, hp, hs, hW, need_some, ebind_ok, hWs, hx, hout, hXc, hWcol, hb,
    hXT, hWT, hmm, ho0, ho1, ho2]

theorem backwardCompute_ok (st : ConvState) (g Wt Xc : Tensor) (ds : List Nat)
    (F C kh kw N H W p s : Nat)
    (hp : st.padding = p) (hs : st.stride = s)
    (hW : st.W = some Wt) (hWs : Wt.shape = [F, C, kh, kw])
    (hXcol : st.X_col = some Xc)
    (hXcs : Xc.shape = [C * (kh * kw), N * (outDim H kh p s * outDim W kw p s)])
    (hds : st.ds_cached = some ds)
    (hins : st.input_shape = some [N, C, H, W])
    (hg : g.shape = [N, F, outDim H kh p s, outDim W kw p s])
    (hAct : ∀ a, st.activation = some a → (a.derivative g).shape = g.shape)
    (hF : 0 < F) :
    ∃ db1 dW1 dX, backwardCompute st g = .ok (db1, dW1, dX) ∧ dX.shape = [N, C, H, W] := by
  have hpg : ∃ pg, actGrad st g = .ok pg ∧
      pg.shape = [N, F, outDim H kh p s, outDim W kw p s] := by
    cases hact : st.activation with
    | none => exact ⟨g, by simp [actGrad, hact], hg⟩
    | some act =>
      obtain ⟨u, hu, hus⟩ := Tensor.mul_ok g (act.derivative g)
        [N, F, outDim H kh p s, outDim W kw p s] hg (by rw [hAct act hact, hg])
      exact ⟨u, by simp [actGrad, hact, hu], hus⟩
  obtain ⟨pg, hpgeq, hpgs⟩ := hpg
  obtain ⟨db0, hdb0, hdb0s⟩ := Tensor.sumAxes023_ok pg _ _ _ _ hpgs
  have hdb0prod : db0.shape.prod = F * 1 := by rw [hdb0s]; simp
  have hdb1 := Tensor.reshapeInfer_ok db0 F hF (by rw [hdb0prod]; exact Nat.mul_mod_right F 1)
  obtain ⟨pg1, hpg1, hpg1s⟩ := Tensor.transpose1230_ok pg _ _ _ _ hpgs
  have hQ : pg1.shape.prod =
      F * (outDim H kh p s * (outDim W kw p s * (N * 1))) := by
    rw [hpg1s]; simp [List.prod_cons]; try ring
  have hpgR := Tensor.reshapeInfer_ok pg1 F hF (by rw [hQ]; exact Nat.mul_mod_right F _)
  have hQdiv : pg1.shape.prod / F = outDim H kh p s * (outDim W kw p s * (N * 1)) := by
    rw [hQ]; exact Nat.mul_div_cancel_left _ hF
  rw [hQdiv] at hpgR
  obtain ⟨XcT, hXcT, hXcTs⟩ := Tensor.T_ok Xc _ _ hXcs
  have hkeq : N * (outDim H kh p s * outDim W kw p s) =
      outDim H kh p s * (outDim W kw p s * (N * 1)) := by ring
  rw [hkeq] at hXcTs
  obtain ⟨dW0, hdW0, hdW0s⟩ := Tensor.matmul_ok
    { pg1 with shape := [F, outDim H kh p s * (outDim W kw p s * (N * 1))] } XcT
    F (outDim H kh p s * (outDim W kw p s * (N * 1))) (C * (kh * kw)) rfl hXcTs
  have hWprod : Wt.shape.prod = F * (C * (kh * kw)) := by
    rw [hWs]; simp [List.prod_cons, Nat.mul_assoc]
  have hdW1 := Tensor.reshape_ok dW0 [F, C, kh, kw]
    (by rw [hdW0s]; simp [List.prod_cons]; try ring)
  have hWcol := Tensor.reshapeInfer_ok Wt F hF (by rw [hWprod]; exact Nat.mul_mod_right F _)
  have hWdiv : Wt.shape.prod / F = C * (kh * kw) := by
    rw [hWprod]; exact Nat.mul_div_cancel_left _ hF
  rw [hWdiv] at hWcol
  obtain ⟨pgT, hpgT, hpgTs⟩ := Tensor.T_ok
    { pg1 with shape := [F, outDim H kh p s * (outDim W kw p s * (N * 1))] } F _ rfl
  obtain ⟨dXcol, hdXcol, hdXcols⟩ := Tensor.matmul_ok pgT
    { Wt with shape := [F, C * (kh * kw)] }
    (outDim H kh p s * (outDim W kw p s * (N * 1))) F (C * (kh * kw)) hpgTs rfl
  obtain ⟨dX, hdX, hdXs⟩ := col2im_ok dXcol ds kh kw p s N C H W
    (by rw [hdXcols]; simp [List.prod_cons]; try ring)
  refine ⟨{ db0 with shape := [F, db0.shape.prod / F] }, { dW0 with shape := [F, C, kh, kw] }, dX, ?_, hdXs⟩
  simp only [backwardCompute, hp, hs, hW, need_some, ebind_ok, hWs, hpgeq, hdb0, hdb1,
    hpg1, hpgR, hXcol, hXcT, hdW0, hdW1, hWcol, hpgT, hdXcol, hds, hins, hdX]

theorem ebind_err {α β : Type} (e : LayerErr) (f : α → Except LayerErr β) :
    ((Except.error e : Except LayerErr α) >>= f) = .error e := rfl

theorem need_none {α : Type} (e : LayerErr) : need (none : Option α) e = .error e := rfl

theorem forward_of_compute (st : ConvState) (x Xc out : Tensor)
    (h : forwardCompute st x = .ok (Xc, out)) :
    forward st x = .ok ({ st with
        last_input := some x
      , ds_cached := some x.subjects
      , X_col := some Xc
      , last_output := some (match st.activation with
          | some act => act.forward out
          | none => out) }, out) := by
  simp [forward, h]

theorem forward_err_of_compute (st : ConvState) (x : Tensor) (e : LayerErr)
    (h : forwardCompute st x = .error e) :
    forward st x = .error e := by
  simp [forward, h]

theorem backward_of_compute (st : ConvState) (g db1 dW1 dX : Tensor)
    (h : backwardCompute st g = .ok (db1, dW1, dX)) :
    backward st g = .ok ({ st with db := some db1, dW := some dW1 }, dX) := by
  simp [backward, h]

theorem backward_err_of_compute (st : ConvState) (g : Tensor) (e : LayerErr)
    (h : backwardCompute st g = .error e) :
    backward st g = .error e := by
  simp [backward, h]

theorem backwardCompute_stateError (st : ConvState) (g Wt : Tensor)
    (F C kh kw N oh ow : Nat)
    (hW : st.W = some Wt) (hWs : Wt.shape = [F, C, kh, kw])
    (hXcol : st.X_col = none)
    (hg : g.shape = [N, F, oh, ow])
    (hAct : ∀ a, st.activation = some a → (a.derivative g).shape = g.shape)
    (hF : 0 < F) :
    backwardCompute st g = .error .stateError := by
  have hpg : ∃ pg, actGrad st g = .ok pg ∧ pg.shape = [N, F, oh, ow] := by
    cases hact : st.activation with
    | none => exact ⟨g, by simp [actGrad, hact], hg⟩
    | some act =>
      obtain ⟨u, hu, hus⟩ := Tensor.mul_ok g (act.derivative g) [N, F, oh, ow] hg
        (by rw [hAct act hact, hg])
      exact ⟨u, by simp [actGrad, hact, hu], hus⟩
  obtain ⟨pg, hpgeq, hpgs⟩ := hpg
  obtain ⟨db0, hdb0, hdb0s⟩ := Tensor.sumAxes023_ok pg _ _ _ _ hpgs
  have hdb1 := Tensor.reshapeInfer_ok db0 F hF
    (by rw [hdb0s]; simp [List.prod_cons]; try exact Nat.mul_mod_right F 1)
  obtain ⟨pg1, hpg1, hpg1s⟩ := Tensor.transpose1230_ok pg _ _ _ _ hpgs
  have hQ : pg1.shape.prod = F * (oh * (ow * (N * 1))) := by
    rw [hpg1s]; simp [List.prod_cons]; try ring
  have hpgR := Tensor.reshapeInfer_ok pg1 F hF (by rw [hQ]; exact Nat.mul_mod_right F _)
  simp only [backwardCompute, hW, need_some, ebind_ok, hWs, hpgeq, hdb0, hdb1, hpg1,
    hpgR, hXcol, need_none, ebind_err]

/-! ## Claim theorems -/

/-- C7: for every Convolution layer constructed without an explicit
input shape, `connect` with no predecessor fails with a
ConfigurationError; when an input shape is available — explicitly or
from a predecessor — `connect` fails unless that shape has exactly 4
axes. -/
theorem conv_connect_validation (st0 st1 st2 : ConvState) (ishape oshape : List Nat)
    (h0 : st0.input_shape = none)
    (h1 : st1.input_shape = some ishape) (hil : ishape.length ≠ 4)
    (hol : oshape.length ≠ 4) :
    connectTo st0 none = .error .configurationError ∧
      connectTo st1 none = .error .configurationError ∧
      connectTo st2 (some (some oshape)) = .error .configurationError := by
  refine ⟨?_, ?_, ?_⟩
  · simp [connectTo, h0]
  · simp only [connectTo, h1]
    rcases ishape with _ | ⟨a, _ | ⟨b, _ | ⟨c, _ | ⟨d, _ | ⟨e, rest⟩⟩⟩⟩⟩ <;>
      first | rfl | (exact absurd rfl hil)
  · simp only [connectTo]
    rcases oshape with _ | ⟨a, _ | ⟨b, _ | ⟨c, _ | ⟨d, _ | ⟨e, rest⟩⟩⟩⟩⟩ <;>
      first | rfl | (exact absurd rfl hol)

theorem conv_connect_validation_witness :
    connectTo (mkConvolution 1 (.int 1) none 1 0 none) none = .error .configurationError ∧
      connectTo (mkConvolution 1 (.int 1) (some [3, 4, 5]) 1 0 none) none
        = .error .configurationError ∧
      connectTo (mkConvolution 1 (.int 1) none 1 0 none) (some (some [2]))
        = .error .configurationError :=
  conv_connect_validation (mkConvolution 1 (.int 1) none 1 0 none)
    (mkConvolution 1 (.int 1) (some [3, 4, 5]) 1 0 none)
    (mkConvolution 1 (.int 1) none 1 0 none) [3, 4, 5] [2] rfl rfl
    (by decide) (by decide)

/-- C8: assigning to `params` with a tuple whose length is not exactly
2 fails with an ArityError; assigning a 2-tuple `(w, b)` succeeds and
replaces the layer's weights and bias. -/
theorem conv_params_setter_arity (st : ConvState) (l : List Tensor) (w bb : Tensor)
    (hl : l.length ≠ 2) :
    paramsSet st l = .error .arityError ∧
      paramsSet st [w, bb] = .ok { st with W := some w, b := some bb } := by
  refine ⟨?_, rfl⟩
  rcases l with _ | ⟨a, _ | ⟨b, _ | ⟨c, rest⟩⟩⟩ <;> first | rfl | (exact absurd rfl hl)

theorem conv_params_setter_arity_witness :
    paramsSet (mkConvolution 1 (.int 1) none 1 0 none) [] = .error .arityError ∧
      paramsSet (mkConvolution 1 (.int 1) none 1 0 none) [wOne, bZero]
        = .ok { mkConvolution 1 (.int 1) none 1 0 none with W := some wOne, b := some bZero } :=
  conv_params_setter_arity (mkConvolution 1 (.int 1) none 1 0 none) [] wOne bZero (by decide)

/-- C10: setting `params` to `(w, b)` and then reading `params` returns
exactly `(w, b)`, and the setter leaves `grads` unchanged. -/
theorem conv_params_roundtrip (st : ConvState) (w bb : Tensor) :
    ∃ st2, paramsSet st [w, bb] = .ok st2 ∧ params st2 = (some w, some bb) ∧
      grads st2 = grads st :=
  ⟨{ st with W := some w, b := some bb }, rfl, rfl, rfl⟩

/-- C9: a successful forward call leaves `W`, `b`, `dW`, `db`, the
connect-time output shape, and the whole configuration unchanged; it
writes only the per-pass caches (last input, cached data subjects,
patch matrix, last output). -/
theorem conv_forward_frame (st : ConvState) (x : Tensor) (st2 : ConvState) (out : Tensor)
    (h : forward st x = .ok (st2, out)) :
    st2.W = st.W ∧ st2.b = st.b ∧ st2.dW = st.dW ∧ st2.db = st.db ∧
      st2.out_shape = st.out_shape ∧ st2.nb_filter = st.nb_filter ∧
      st2.stride = st.stride ∧ st2.padding = st.padding ∧
      st2.input_shape = st.input_shape ∧
      st2.last_input = some x ∧ st2.ds_cached = some x.subjects ∧
      (∃ Xc, st2.X_col = some Xc) ∧ (∃ lo, st2.last_output = some lo) := by
  unfold forward at h
  cases hfc : forwardCompute st x with
  | error e => rw [hfc] at h; simp at h
  | ok pr =>
    rw [hfc] at h
    obtain ⟨Xc, o⟩ := pr
    simp only [Except.ok.injEq, Prod.mk.injEq] at h
    obtain ⟨h1, h2⟩ := h
    subst h1
    exact ⟨rfl, rfl, rfl, rfl, rfl, rfl, rfl, rfl, rfl, rfl, rfl, ⟨Xc, rfl⟩, ⟨_, rfl⟩⟩

theorem conv_forward_frame_witness :
    forward c9st c9x = .ok (c9after, c9out) ∧
      (c9after.W = c9st.W ∧ c9after.b = c9st.b ∧ c9after.dW = c9st.dW ∧
        c9after.db = c9st.db ∧ c9after.out_shape = c9st.out_shape ∧
        c9after.nb_filter = c9st.nb_filter ∧ c9after.stride = c9st.stride ∧
        c9after.padding = c9st.padding ∧ c9after.input_shape = c9st.input_shape ∧
        c9after.last_input = some c9x ∧ c9after.ds_cached = some c9x.subjects ∧
        (∃ Xc, c9after.X_col = some Xc) ∧ (∃ lo, c9after.last_output = some lo)) :=
  ⟨rfl, conv_forward_frame c9st c9x c9after c9out rfl⟩

/-- C1 (code bug): with an activation configured, `forward` computes
the activated value and caches it in `last_output`, but RETURNS the
raw pipeline output instead.  On the concrete run `c1st`/`c1x` the
returned data is `[-5]` while the activated value the claim (and spec)
say is returned is `[0]`. -/
theorem conv_forward_returns_unactivated_output :
    Except.map (fun pr => (pr.2.data, (pr.1).last_output.map Tensor.data)) (forward c1st c1x)
        = .ok ([-5], some [0]) ∧
      ([-5] : List Int) ≠ ([0] : List Int) :=
  ⟨rfl, by decide⟩

/-- C5 (code bug): `backward` multiplies the incoming gradient by the
activation's derivative evaluated AT THE INCOMING GRADIENT, not at the
cached pre-activation value.  Concrete run: pre-activation value `2`,
incoming gradient `3`, identity-valued derivative; the code's bias
gradient is `3 * 3 = 9` where the claim's formula gives `3 * 2 = 6`. -/
theorem conv_backward_derivative_at_incoming_gradient :
    Except.map (fun pr => (pr.1).db.map Tensor.data) (backward c5st c5g) = .ok (some [9]) ∧
      c5g.data.getD 0 0 * (valAct.derivative c5g).data.getD 0 0 = 9 ∧
      c5g.data.getD 0 0 * (valAct.derivative c5preact).data.getD 0 0 = 6 ∧
      (9 : Int) ≠ 6 :=
  ⟨rfl, rfl, rfl, by decide⟩

/-- C3 counterexample: a connected, forwarded layer whose connection
came from a predecessor (so its constructor-supplied `input_shape` is
`None`): `backward` on a gradient of the layer's output shape fails
(unpacking `None` inside `col2im_indices`) instead of returning an
input-gradient tensor. -/
theorem conv_backward_predecessor_connected_fails :
    c3st.out_shape = some [1, 1, 1, 1] ∧ c3st.input_shape = none ∧
      c3st.X_col.isSome = true ∧ gOne.shape = [1, 1, 1, 1] ∧
      backward c3st gOne = .error .typeError :=
  ⟨rfl, rfl, rfl, rfl, rfl⟩

/-- C4 counterexample: `backward` does not clear the forward caches, so
on `c4st` — a layer that was forwarded once and then backwarded, with
NO forward since that backward — a second `backward` still succeeds
instead of failing with a StateError. -/
theorem conv_second_backward_succeeds :
    c4st.last_input.isSome = true ∧ (∃ st2 dX, backward c4st gOne = .ok (st2, dX)) := by
  exact ⟨rfl, ⟨_, _, rfl⟩⟩

/-- C4 (amended): `backward` fails with a StateError exactly in the
never-forwarded states — a freshly constructed layer (`W` still unset)
or a freshly connected one (patch-matrix cache still unset); it does
NOT fail merely because no forward happened since the last backward. -/
theorem conv_backward_never_forwarded_state_error (stf st : ConvState) (g Wt : Tensor)
    (F C kh kw N oh ow : Nat)
    (hWf : stf.W = none)
    (hW : st.W = some Wt) (hWs : Wt.shape = [F, C, kh, kw]) (hXcol : st.X_col = none)
    (hg : g.shape = [N, F, oh, ow])
    (hAct : ∀ a, st.activation = some a → (a.derivative g).shape = g.shape)
    (hF : 0 < F) :
    backward stf g = .error .stateError ∧ backward st g = .error .stateError := by
  constructor
  · apply backward_err_of_compute
    simp only [backwardCompute, hWf, need_none, ebind_err]
  · exact backward_err_of_compute st g _
      (backwardCompute_stateError st g Wt F C kh kw N oh ow hW hWs hXcol hg hAct hF)

theorem conv_backward_never_forwarded_state_error_witness :
    backward (mkConvolution 1 (.int 1) none 1 0 none) gOne = .error .stateError ∧
      backward c9st gOne = .error .stateError :=
  conv_backward_never_forwarded_state_error (mkConvolution 1 (.int 1) none 1 0 none)
    c9st gOne (xavierInit [1, 1, 1, 1]) 1 1 1 1 1 1 1 rfl rfl rfl rfl rfl
    (fun a ha => Option.noConfusion ha) (by decide)

theorem connectTo_connectedConv (F kh kw s p N C H W : Nat) (act : Option Activation) :
    connectTo (mkConvolution F (.pair kh kw) (some [N, C, H, W]) s p act) none
      = .ok (connectedConv F kh kw s p N C H W act) :=
  connectTo_explicit (mkConvolution F (.pair kh kw) (some [N, C, H, W]) s p act)
    N C H W kh kw rfl rfl

/-- C2: for every valid configuration `(F, kh, kw, s, p)` and rank-4
input shape `(N, C, H, W)` with `H + 2p ≥ kh` and `W + 2p ≥ kw`,
`connect` computes output shape
`(N, F, (H + 2p - kh) // s + 1, (W + 2p - kw) // s + 1)`, and `forward`
on an input of that shape returns a tensor of exactly that shape. -/
theorem conv_connect_forward_shape_law (F kh kw s p N C H W : Nat)
    (act : Option Activation) (x : Tensor)
    (hF : 0 < F) (hs : 0 < s)
    (hH : kh ≤ H + 2 * p) (hWd : kw ≤ W + 2 * p)
    (hx : x.shape = [N, C, H, W]) :
    ∃ st1, connectTo (mkConvolution F (.pair kh kw) (some [N, C, H, W]) s p act) none
        = .ok st1 ∧
      st1.out_shape = some [N, F, (H + 2 * p - kh) / s + 1, (W + 2 * p - kw) / s + 1] ∧
      ∃ st2 out, forward st1 x = .ok (st2, out) ∧
        out.shape = [N, F, (H + 2 * p - kh) / s + 1, (W + 2 * p - kw) / s + 1] := by
  refine ⟨connectedConv F kh kw s p N C H W act,
    connectTo_connectedConv F kh kw s p N C H W act, rfl, ?_⟩
  obtain ⟨Xc, out, hfc, _, houts⟩ := forwardCompute_ok
    (connectedConv F kh kw s p N C H W act) x (xavierInit [F, C, kh, kw]) (zeros1 F)
    F C kh kw N H W p s rfl rfl rfl rfl rfl rfl rfl hx hF
  exact ⟨_, out, forward_of_compute _ x Xc out hfc, houts⟩

theorem conv_connect_forward_shape_law_witness :
    (0 < 1 ∧ 0 < 1 ∧ 1 ≤ 2 + 2 * 0 ∧ c2x.shape = [1, 1, 2, 2]) ∧
      ∃ st1, connectTo (mkConvolution 1 (.pair 1 1) (some [1, 1, 2, 2]) 1 0 none) none
          = .ok st1 ∧
        st1.out_shape = some [1, 1, (2 + 2 * 0 - 1) / 1 + 1, (2 + 2 * 0 - 1) / 1 + 1] ∧
        ∃ st2 out, forward st1 c2x = .ok (st2, out) ∧
          out.shape = [1, 1, (2 + 2 * 0 - 1) / 1 + 1, (2 + 2 * 0 - 1) / 1 + 1] :=
  ⟨⟨by decide, by decide, by decide, rfl⟩,
    conv_connect_forward_shape_law 1 1 1 1 0 1 1 2 2 none c2x
      (by decide) (by decide) (by decide) (by decide) rfl⟩

/-- C3 (amended): for a layer constructed with an explicit rank-4 input
shape `(N, C, H, W)` and connected, after a forward pass with an input
of that shape, `backward` on a gradient of the layer's output shape
returns an input-gradient tensor of exactly the shape `(N, C, H, W)`
— provided the activation's derivative is shape-preserving.  The
unamended claim, quantified over EVERY connected layer, is false:
`backward` reads the constructor-supplied `input_shape`, which is
`None` for predecessor-connected layers, so it fails there (see the
counterexample). -/
theorem conv_backward_input_gradient_shape (F kh kw s p N C H W : Nat)
    (act : Option Activation) (x g : Tensor)
    (hF : 0 < F) (hs : 0 < s) (hH : kh ≤ H + 2 * p) (hWd : kw ≤ W + 2 * p)
    (hx : x.shape = [N, C, H, W])
    (hg : g.shape = [N, F, outDim H kh p s, outDim W kw p s])
    (hAct : ∀ a, act = some a → (a.derivative g).shape = g.shape) :
    ∃ st1 st2 out st3 dX,
      connectTo (mkConvolution F (.pair kh kw) (some [N, C, H, W]) s p act) none = .ok st1 ∧
        forward st1 x = .ok (st2, out) ∧
        backward st2 g = .ok (st3, dX) ∧
        dX.shape = [N, C, H, W] := by
  obtain ⟨Xc, out, hfc, hXcs, houts⟩ := forwardCompute_ok
    (connectedConv F kh kw s p N C H W act) x (xavierInit [F, C, kh, kw]) (zeros1 F)
    F C kh kw N H W p s rfl rfl rfl rfl rfl rfl rfl hx hF
  obtain ⟨db1, dW1, dX, hbc, hdXs⟩ := backwardCompute_ok
    { connectedConv F kh kw s p N C H W act with
        last_input := some x
      , ds_cached := some x.subjects
      , X_col := some Xc
      , last_output := some (match (connectedConv F kh kw s p N C H W act).activation with
          | some a => a.forward out
          | none => out) } g (xavierInit [F, C, kh, kw]) Xc x.subjects
    F C kh kw N H W p s rfl rfl rfl rfl rfl hXcs rfl rfl hg (fun a ha => hAct a ha) hF
  exact ⟨connectedConv F kh kw s p N C H W act, _, out, _, dX,
    connectTo_connectedConv F kh kw s p N C H W act,
    forward_of_compute _ x Xc out hfc,
    backward_of_compute _ g db1 dW1 dX hbc, hdXs⟩

theorem conv_backward_input_gradient_shape_witness :
    (0 < 1 ∧ c9x.shape = [1, 1, 1, 1] ∧ gOne.shape = [1, 1, 1, 1]) ∧
      ∃ st1 st2 out st3 dX,
        connectTo (mkConvolution 1 (.pair 1 1) (some [1, 1, 1, 1]) 1 0 none) none
            = .ok st1 ∧
          forward st1 c9x = .ok (st2, out) ∧
          backward st2 gOne = .ok (st3, dX) ∧
          dX.shape = [1, 1, 1, 1] :=
  ⟨⟨by decide, rfl, rfl⟩,
    conv_backward_input_gradient_shape 1 1 1 1 0 1 1 1 1 none c9x gOne
      (by decide) (by decide) (by decide) (by decide) rfl rfl
      (fun a ha => Option.noConfusion ha)⟩

theorem forwardCompute_rank_error (st : ConvState) (x Wt : Tensor) (F C kh kw : Nat)
    (hW : st.W = some Wt) (hWs : Wt.shape = [F, C, kh, kw])
    (hlen : x.shape.length ≠ 4) :
    forwardCompute st x = .error .shapeMismatchError := by
  rcases hxs : x.shape with _ | ⟨a, _ | ⟨b, _ | ⟨c, _ | ⟨d, _ | ⟨e, rest⟩⟩⟩⟩⟩ <;>
    rw [hxs] at hlen <;>
    first
    | exact absurd rfl hlen
    | simp only [forwardCompute, hW, need_some, ebind_ok, hWs, hxs, ebind_err]

theorem forwardCompute_channel_error (st : ConvState) (x Wt bt : Tensor)
    (F C kh kw N H W p s Nx Cx Hx Wx : Nat)
    (hp : st.padding = p) (hs : st.stride = s)
    (hW : st.W = some Wt) (hWs : Wt.shape = [F, C, kh, kw])
    (hb : st.b = some bt)
    (hout : st.out_shape = some [N, F, outDim H kh p s, outDim W kw p s])
    (hF : 0 < F) (hkh : 0 < kh) (hkw : 0 < kw)
    (hxs : x.shape = [Nx, Cx, Hx, Wx]) (hC : Cx ≠ C) :
    forwardCompute st x = .error .shapeMismatchError := by
  obtain ⟨Xc, hXc, hXcs⟩ := im2col_ok x kh kw p s Nx Cx Hx Wx hxs
  have hWprod : Wt.shape.prod = F * (C * (kh * kw)) := by
    rw [hWs]; simp [List.prod_cons, Nat.mul_assoc]
  have hWcol := Tensor.reshapeInfer_ok Wt F hF (by rw [hWprod]; exact Nat.mul_mod_right F _)
  have hWdiv : Wt.shape.prod / F = C * (kh * kw) := by
    rw [hWprod]; exact Nat.mul_div_cancel_left _ hF
  rw [hWdiv] at hWcol
  obtain ⟨XT, hXT, hXTs⟩ := Tensor.T_ok Xc _ _ hXcs
  obtain ⟨WT, hWT, hWTs⟩ :=
    Tensor.T_ok { Wt with shape := [F, C * (kh * kw)] } F (C * (kh * kw)) rfl
  have hne : Cx * (kh * kw) ≠ C * (kh * kw) := fun h =>
    hC (Nat.eq_of_mul_eq_mul_right (Nat.mul_pos hkh hkw) h)
  have hmmerr : XT.matmul WT = .error .shapeMismatchError := by
    simp only [Tensor.matmul, hXTs, hWTs]
    rw [if_neg hne]
  simp only [forwardCompute, hp, hs, hW, need_some, ebind_ok, hWs, hxs, hout, hXc,
    hWcol, hb, hXT, hWT, hmmerr, ebind_err]

/-- C6 counterexample: `c6x` is a rank-4 input whose channel count 1
matches the weights' input-channel axis, yet `forward` raises a shape
error anyway, because its spatial extent (3×3) differs from the
connect-time 2×2: "rank 4 and matching channels" is not sufficient for
forward to succeed. -/
theorem conv_forward_conforming_input_error :
    c6x.shape = [1, 1, 3, 3] ∧
      c6st.W.map Tensor.shape = some [1, 1, 1, 1] ∧
      forward c6st c6x = .error .shapeMismatchError :=
  ⟨rfl, rfl, rfl⟩

/-- C6 (amended): on a connected layer, `forward` fails with a
ShapeMismatchError whenever the input rank is not 4 or the channel
count differs from the weights' input-channel axis, and an input of
exactly the connect-time shape raises no error; but rank 4 plus
matching channels alone do not guarantee success — the spatial extents
must also be compatible with the connect-time output shape (see the
counterexample). -/
theorem conv_forward_error_conditions (st : ConvState) (x : Tensor)
    (F C kh kw N H W p s : Nat)
    (hp : st.padding = p) (hs : st.stride = s)
    (hW : st.W = some (xavierInit [F, C, kh, kw]))
    (hb : st.b = some (zeros1 F))
    (hout : st.out_shape = some [N, F, outDim H kh p s, outDim W kw p s])
    (hF : 0 < F) (hkh : 0 < kh) (hkw : 0 < kw) :
    (x.shape.length ≠ 4 → forward st x = .error .shapeMismatchError) ∧
      (∀ Nx Cx Hx Wx, x.shape = [Nx, Cx, Hx, Wx] → Cx ≠ C →
        forward st x = .error .shapeMismatchError) ∧
      (x.shape = [N, C, H, W] → ∃ st2 out, forward st x = .ok (st2, out) ∧
        out.shape = [N, F, outDim H kh p s, outDim W kw p s]) := by
  refine ⟨?_, ?_, ?_⟩
  · intro hlen
    exact forward_err_of_compute st x _
      (forwardCompute_rank_error st x (xavierInit [F, C, kh, kw]) F C kh kw hW rfl hlen)
  · intro Nx Cx Hx Wx hxs hC
    exact forward_err_of_compute st x _
      (forwardCompute_channel_error st x (xavierInit [F, C, kh, kw]) (zeros1 F)
        F C kh kw N H W p s Nx Cx Hx Wx hp hs hW rfl hb hout hF hkh hkw hxs hC)
  · intro hxs
    obtain ⟨Xc, out, hfc, _, houts⟩ := forwardCompute_ok st x (xavierInit [F, C, kh, kw])
      (zeros1 F) F C kh kw N H W p s hp hs hW rfl hb rfl hout hxs hF
    exact ⟨_, out, forward_of_compute _ x Xc out hfc, houts⟩

theorem conv_forward_error_conditions_witness :
    ((connectedConv 1 1 1 1 0 1 1 2 2 none).W = some (xavierInit [1, 1, 1, 1]) ∧
        0 < 1 ∧ c2x.shape = [1, 1, 2, 2]) ∧
      ((c2x.shape.length ≠ 4 →
          forward (connectedConv 1 1 1 1 0 1 1 2 2 none) c2x = .error .shapeMismatchError) ∧
        (∀ Nx Cx Hx Wx, c2x.shape = [Nx, Cx, Hx, Wx] → Cx ≠ 1 →
          forward (connectedConv 1 1 1 1 0 1 1 2 2 none) c2x = .error .shapeMismatchError) ∧
        (c2x.shape = [1, 1, 2, 2] →
          ∃ st2 out, forward (connectedConv 1 1 1 1 0 1 1 2 2 none) c2x = .ok (st2, out) ∧
            out.shape = [1, 1, outDim 2 1 0 1, outDim 2 1 0 1])) :=
  ⟨⟨rfl, by decide, rfl⟩,
    conv_forward_error_conditions (connectedConv 1 1 1 1 0 1 1 2 2 none) c2x
      1 1 1 1 1 2 2 0 1 rfl rfl rfl rfl rfl (by decide) (by decide) (by decide)⟩
